import Mathlib

/-!
Verification development for the water-quality data-access layer
(`app/db/mongo.py`) and the request/response schema catalog
(`app/models/schemas.py`).

The data-access layer is a thin wrapper over a document store.  We embed it
shallowly: a document is an association list of string keys and values (the
image of a Python `dict`, whose keys are unique), a collection is a list of
documents plus a fresh-id counter (the image of a Mongo collection together
with its ObjectId generator), and each `MongoDB` classmethod becomes a pure
state-passing function.  `datetime.utcnow()` becomes an explicit clock
argument.  The store-driver operations used by the code (`insert_one`,
`find_one`, `find`, `update_one` with and without `upsert`, `delete_one`,
sort/skip/limit cursors) are modelled with their documented MongoDB
semantics: filters are conjunctions of field equalities matched against a
document, `$set` merges fields into the first matching document,
`modified_count` counts a document only when the applied `$set` actually
changed it, and `delete_one` removes the first matching document.
-/

/-- A scalar stored-document value: strings, integers and timestamps cover
everything the claims touch (`datetime.utcnow()` is abstracted to a `Nat`
tick). -/
inductive Value where
  | str (s : String)
  | int (n : Int)
  | time (t : Nat)
deriving DecidableEq, Repr

/-- A document: the image of a Python `dict` passed to / returned from the
store.  Keys of an actual `dict` are unique; lemmas that need this take a
`DocNodup` hypothesis. -/
abbrev Doc := List (String × Value)

/-- Key lookup, first occurrence (`d[k]` / BSON field access). -/
def dGet : Doc → String → Option Value
  | [], _ => none
  | p :: d, k => if p.1 = k then some p.2 else dGet d k

/-- Key assignment `d[k] = v`: replaces the (unique) existing entry in
place, otherwise appends — Python `dict` update semantics, which is also
what `$set` does to one field of a BSON document. -/
def dSet : Doc → String → Value → Doc
  | [], k, v => [(k, v)]
  | p :: d, k, v => if p.1 = k then (k, v) :: d else p :: dSet d k v

/-- The keys of a document, in order. -/
def dKeys (d : Doc) : List String := d.map Prod.fst

/-- Well-formedness of a document: its keys are unique (true of every
Python `dict`). -/
def DocNodup (d : Doc) : Prop := (dKeys d).Nodup

instance (d : Doc) : Decidable (DocNodup d) := by
  unfold DocNodup; infer_instance

theorem docNodup_cons {p : String × Value} {d : Doc}
    (h : DocNodup (p :: d)) : p.1 ∉ dKeys d ∧ DocNodup d := by
  unfold DocNodup dKeys at h
  simp only [List.map_cons, List.nodup_cons] at h
  exact h

theorem get_set_self (d : Doc) (k : String) (v : Value) :
    dGet (dSet d k v) k = some v := by
  induction d with
  | nil => simp [dSet, dGet]
  | cons p d ih =>
    by_cases h : p.1 = k
    · simp [dSet, h, dGet]
    · simp [dSet, h, dGet, ih]

theorem get_set_ne (d : Doc) (k k' : String) (v : Value) (h : k' ≠ k) :
    dGet (dSet d k v) k' = dGet d k' := by
  induction d with
  | nil => simp [dSet, dGet, Ne.symm h]
  | cons p d ih =>
    by_cases hp : p.1 = k
    · simp [dSet, hp, dGet, Ne.symm h]
    · by_cases hk : p.1 = k'
      · simp [dSet, dGet, hk, h]
      · simp [dSet, hp, dGet, hk, ih]

/-- `dGet d k = some v` means the pair `(k, v)` occurs in the list. -/
theorem get_mem {d : Doc} {k : String} {v : Value}
    (h : dGet d k = some v) : (k, v) ∈ d := by
  induction d with
  | nil => simp [dGet] at h
  | cons p d ih =>
    simp only [dGet] at h
    by_cases hp : p.1 = k
    · rw [if_pos hp] at h
      injection h with hv
      rw [← hp, ← hv]
      exact List.mem_cons_self _ _
    · rw [if_neg hp] at h
      exact List.mem_cons_of_mem _ (ih h)

/-- On a duplicate-free document, setting a key to the value it already has
is the identity (used for Mongo's `modified_count` semantics). -/
theorem set_eq_self {d : Doc} {k : String} {v : Value}
    (hnd : DocNodup d) (h : dGet d k = some v) : dSet d k v = d := by
  induction d with
  | nil => simp [dGet] at h
  | cons p d ih =>
    simp only [dGet] at h
    by_cases hp : p.1 = k
    · rw [if_pos hp] at h
      injection h with hv
      have hkv : ((k, v) : String × Value) = p := by rw [← hp, ← hv]
      simp [dSet, hp, hkv]
    · rw [if_neg hp] at h
      simp [dSet, hp, ih (docNodup_cons hnd).2 h]

/-- Applying a MongoDB `$set` with update mapping `u` to a document:
field-by-field assignment, in the mapping's order. -/
def applySet (d : Doc) (u : Doc) : Doc :=
  u.foldl (fun acc p => dSet acc p.1 p.2) d

theorem applySet_nil (d : Doc) : applySet d [] = d := rfl

theorem applySet_cons (d : Doc) (p : String × Value) (u : Doc) :
    applySet d (p :: u) = applySet (dSet d p.1 p.2) u := rfl

/-- A key not named by the update mapping is untouched by `$set`. -/
theorem applySet_get_not_mem (d : Doc) (u : Doc) (k : String)
    (h : k ∉ dKeys u) : dGet (applySet d u) k = dGet d k := by
  induction u generalizing d with
  | nil => rfl
  | cons p u ih =>
    simp only [dKeys, List.map_cons, List.mem_cons] at h
    push_neg at h
    rw [applySet_cons, ih _ (by simpa [dKeys] using h.2),
      get_set_ne _ _ _ _ h.1]

/-- A key named by a duplicate-free update mapping ends up holding the
mapping's value after `$set`. -/
theorem applySet_get_mem (d : Doc) {u : Doc} {k : String} {v : Value}
    (hnd : DocNodup u) (h : (k, v) ∈ u) : dGet (applySet d u) k = some v := by
  induction u generalizing d with
  | nil => simp at h
  | cons p u ih =>
    rcases List.mem_cons.mp h with h1 | h1
    · subst h1
      rw [applySet_cons, applySet_get_not_mem _ _ _ (docNodup_cons hnd).1,
        get_set_self]
    · rw [applySet_cons]
      exact ih _ (docNodup_cons hnd).2 h1

/-- A Mongo collection: stored documents in insertion order plus the
ObjectId generator (modelled as a counter). -/
structure Coll where
  docs : List Doc
  nextId : Nat
deriving DecidableEq, Repr

/-- A filter document matches a stored document when every filter field
equals the document's value for that field (Mongo equality filter). -/
def docMatches (q d : Doc) : Bool := q.all (fun p => dGet d p.1 == some p.2)

/-- Driver `find_one(query)`: the first stored document matching. -/
def find_one (c : Coll) (q : Doc) : Option Doc := c.docs.find? (docMatches q)

/-- Driver `find(query)` drained by `to_list(length=None)`: all matches. -/
def findAll (c : Coll) (q : Doc) : List Doc := c.docs.filter (docMatches q)

/-- Driver `insert_one`: appends the document and returns the generated
ObjectId (stringified, as the Python code does with `str(...)`). -/
def insert_one (c : Coll) (d : Doc) : String × Coll :=
  (toString c.nextId, Coll.mk (c.docs ++ [d]) (c.nextId + 1))

/-- Whether a `$set` with mapping `u` actually changes document `d`
(Mongo counts the document in `modified_count` only in that case). -/
def setChanges (d u : Doc) : Bool := u.any (fun p => !(dGet d p.1 == some p.2))

/-- `update_one`'s traversal: rewrite the first matching document with the
`$set`, report whether a document was modified. -/
def updateFirst : List Doc → Doc → Doc → Bool × List Doc
  | [], _, _ => (false, [])
  | d :: ds, q, u =>
    if docMatches q d then (setChanges d u, applySet d u :: ds)
    else
      let r := updateFirst ds q u
      (r.1, d :: r.2)

/-- Driver `update_one(query, {"$set": u})` without upsert: boolean is the
Python code's `modified_count > 0`. -/
def update_one (c : Coll) (q u : Doc) : Bool × Coll :=
  let r := updateFirst c.docs q u
  (r.1, Coll.mk r.2 c.nextId)

/-- Driver `update_one(query, {"$set": u}, upsert=True)`: when nothing
matches, Mongo inserts a new document built from the filter's equality
fields with the `$set` applied (consuming a fresh ObjectId). -/
def update_one_upsert (c : Coll) (q u : Doc) : Coll :=
  if c.docs.any (docMatches q) then Coll.mk (updateFirst c.docs q u).2 c.nextId
  else Coll.mk (c.docs ++ [applySet q u]) (c.nextId + 1)

/-- `delete_one`'s traversal: drop the first matching document. -/
def deleteFirst : List Doc → Doc → Bool × List Doc
  | [], _ => (false, [])
  | d :: ds, q =>
    if docMatches q d then (true, ds)
    else
      let r := deleteFirst ds q
      (r.1, d :: r.2)

/-- Driver `delete_one(query)`: boolean is `deleted_count > 0`. -/
def delete_one (c : Coll) (q : Doc) : Bool × Coll :=
  let r := deleteFirst c.docs q
  (r.1, Coll.mk r.2 c.nextId)

/-- Number of stored documents matching a filter. -/
def countMatches (c : Coll) (q : Doc) : Nat :=
  c.docs.countP (fun d => docMatches q d)

/- ========== WATER REPORTS (`app/db/mongo.py`) ========== -/

/-- The state of the caller's `report_data` dict after
`save_water_report`'s two timestamp assignments (lines 77-78 mutate the
argument in place; `t1`/`t2` are the two `datetime.utcnow()` calls). -/
def reportStamped (report_data : Doc) (t1 t2 : Nat) : Doc :=
  dSet (dSet report_data "created_at" (Value.time t1)) "updated_at" (Value.time t2)

/-- `MongoDB.save_water_report`: stamp timestamps, insert, return the
stringified generated id. -/
def save_water_report (c : Coll) (report_data : Doc) (t1 t2 : Nat) :
    String × Coll :=
  insert_one c (reportStamped report_data t1 t2)

/-- `MongoDB.get_water_report`: `find_one({"report_id": report_id})`. -/
def get_water_report (c : Coll) (report_id : String) : Option Doc :=
  find_one c [("report_id", Value.str report_id)]

/-- Sort key used by `get_all_reports`'s `sort("created_at", -1)`: a
missing or non-timestamp `created_at` sorts below every real timestamp
(Mongo orders missing fields before all BSON dates). -/
def createdKey (d : Doc) : Nat :=
  match dGet d "created_at" with
  | some (Value.time t) => t + 1
  | _ => 0

/-- The descending `created_at` order of `sort("created_at", -1)`. -/
def byCreatedDesc (a b : Doc) : Prop := createdKey b ≤ createdKey a

instance : DecidableRel byCreatedDesc := fun _ _ => Nat.decLe _ _

instance : IsTotal Doc byCreatedDesc :=
  ⟨fun a b => le_total (createdKey b) (createdKey a)⟩

instance : IsTrans Doc byCreatedDesc :=
  ⟨fun _ _ _ h1 h2 => le_trans h2 h1⟩

/-- `MongoDB.get_all_reports(limit, skip)`:
`find().sort("created_at", -1).skip(skip).limit(limit)` drained by
`to_list(length=limit)`. -/
def get_all_reports (c : Coll) (limit : Nat) (skip : Nat) : List Doc :=
  ((List.insertionSort byCreatedDesc c.docs).drop skip).take limit

/-- The state of the caller's `update_data` dict after
`update_water_report`'s timestamp assignment (line 105 mutates the
argument in place). -/
def updateStamped (update_data : Doc) (now : Nat) : Doc :=
  dSet update_data "updated_at" (Value.time now)

/-- `MongoDB.update_water_report`: stamp `updated_at`, `$set`-update the
report matched by `report_id`, return `modified_count > 0`. -/
def update_water_report (c : Coll) (report_id : String) (update_data : Doc)
    (now : Nat) : Bool × Coll :=
  update_one c [("report_id", Value.str report_id)]
    (updateStamped update_data now)

/-- `MongoDB.delete_water_report`: delete by `report_id`, return
`deleted_count > 0`. -/
def delete_water_report (c : Coll) (report_id : String) : Bool × Coll :=
  delete_one c [("report_id", Value.str report_id)]

/- ========== PARAMETER STANDARDS ========== -/

/-- `MongoDB.save_parameter_standard`: upsert keyed on
`standard_data["parameter_name"]` (a missing key raises `KeyError`,
modelled as `none`); returns the name together with the new state. -/
def save_parameter_standard (c : Coll) (standard_data : Doc) :
    Option (Value × Coll) :=
  (dGet standard_data "parameter_name").map fun nv =>
    (nv, update_one_upsert c [("parameter_name", nv)] standard_data)

/- ========== COMPLIANCE RULES / SUGGESTION TEMPLATES ========== -/

/-- Python truthiness of the `Optional[str]` filter argument: `None` and
`""` are falsy. -/
def truthyStr : Option String → Bool
  | none => false
  | some s => !(s == "")

/-- `MongoDB.get_compliance_rules(standard=None)`:
`query = {"standard": standard} if standard else {}`. -/
def get_compliance_rules (c : Coll) (standard : Option String) : List Doc :=
  findAll c
    (if truthyStr standard then [("standard", Value.str (standard.getD ""))]
     else [])

/-- `MongoDB.get_suggestion_templates(category=None)`:
`query = {"category": category} if category else {}`. -/
def get_suggestion_templates (c : Coll) (category : Option String) :
    List Doc :=
  findAll c
    (if truthyStr category then [("category", Value.str (category.getD ""))]
     else [])

/- ========== CONNECTION LIFECYCLE ========== -/

/-- The two environment variables `connect` reads. -/
structure Env where
  mongoUri : Option String
  mongoDbName : Option String
deriving DecidableEq, Repr

/-- `os.getenv("MONGO_DB_NAME", "water_quality_db")`. -/
def resolvedDbName (e : Env) : String :=
  e.mongoDbName.getD "water_quality_db"

/-- The connection target the driver resolves from the constructor
argument.  `AsyncIOMotorClient` hands its positional argument straight to
the underlying `MongoClient`, whose documented behaviour for `host=None`
is to fall back to its default host and port (`localhost:27017`); no URI
validation is performed on a `None` argument. -/
def clientTarget (uri : Option String) : String :=
  uri.getD "mongodb://localhost:27017"

inductive ConnectResult where
  | ok (target dbName : String)
  | error (msg : String)
deriving DecidableEq, Repr

/-- `MongoDB._create_indexes`: every index-creation failure (`idxErr`) is
caught by the bare `except` and logged as a warning; the coroutine returns
normally either way.  The result is the warning text that was logged,
never a raised error. -/
def create_indexes (idxErr : Option String) : Option String := idxErr

/-- `MongoDB.connect`: resolve the env config, build the client (see
`clientTarget`), ping, then provision indexes.  `pingOk` abstracts
reachability of the resolved target — a failed ping raises and the
`except` block re-raises.  Index provisioning runs after a successful ping
and its errors never escape (`create_indexes`). -/
def connect (e : Env) (pingOk : Bool) (idxErr : Option String) :
    ConnectResult :=
  let target := clientTarget e.mongoUri
  let dbName := resolvedDbName e
  if pingOk then
    let _warning := create_indexes idxErr
    ConnectResult.ok target dbName
  else ConnectResult.error "MongoDB connection failed"

/- ========== GENERAL LEMMAS ABOUT THE STORE OPERATIONS ========== -/

/-- The empty filter matches everything, so a `find` with it returns the
whole collection. -/
theorem findAll_nil (c : Coll) : findAll c [] = c.docs :=
  List.filter_eq_self.mpr (fun _ _ => rfl)

theorem find?_append_none {α : Type} (p : α → Bool) (l1 l2 : List α)
    (h : ∀ a ∈ l1, p a = false) :
    (l1 ++ l2).find? p = l2.find? p := by
  induction l1 with
  | nil => rfl
  | cons a l ih =>
    have ha : p a = false := h a (List.mem_cons_self a l)
    rw [List.cons_append, List.find?_cons_of_neg _ (by simp [ha]),
      ih (fun b hb => h b (List.mem_cons_of_mem _ hb))]

theorem deleteFirst_of_count_zero (ds : List Doc) (q : Doc)
    (h : ds.countP (fun d => docMatches q d) = 0) :
    deleteFirst ds q = (false, ds) := by
  induction ds with
  | nil => rfl
  | cons d ds ih =>
    rw [List.countP_cons] at h
    cases hm : docMatches q d with
    | true => rw [hm] at h; simp at h
    | false =>
      rw [hm] at h
      simp only [Bool.false_eq_true, if_false, Nat.add_zero] at h
      simp [deleteFirst, hm, ih h]

theorem deleteFirst_of_count_one (ds : List Doc) (q : Doc)
    (h : ds.countP (fun d => docMatches q d) = 1) :
    (deleteFirst ds q).1 = true ∧
    (deleteFirst ds q).2.countP (fun d => docMatches q d) = 0 := by
  induction ds with
  | nil => simp [List.countP_nil] at h
  | cons d ds ih =>
    rw [List.countP_cons] at h
    cases hm : docMatches q d with
    | true =>
      rw [hm] at h
      simp at h
      refine ⟨by simp [deleteFirst, hm], ?_⟩
      simpa [deleteFirst, hm] using h
    | false =>
      rw [hm] at h
      simp only [Bool.false_eq_true, if_false, Nat.add_zero] at h
      have ih' := ih h
      simp [deleteFirst, hm, List.countP_cons, ih'.1, ih'.2]

/- ========== C10 ========== -/

/-- C10: the empty string is falsy in Python, so calling
`get_compliance_rules` (resp. `get_suggestion_templates`) with `""` builds
the empty query and returns every document of the collection — exactly the
behaviour with no filter argument — rather than the documents whose
`standard` (resp. `category`) equals `""`. -/
theorem c10_empty_string_filter_returns_all (c : Coll) :
    get_compliance_rules c (some "") = c.docs ∧
    get_compliance_rules c none = c.docs ∧
    get_suggestion_templates c (some "") = c.docs ∧
    get_suggestion_templates c none = c.docs := by
  refine ⟨?_, ?_, ?_, ?_⟩ <;>
    simp [get_compliance_rules, get_suggestion_templates, truthyStr,
      findAll_nil]

/- ========== C7 ========== -/

/-- C7: once the liveness ping has succeeded, `connect` completes with the
resolved target and database name whatever happens during index
provisioning: the index-creation failure is only logged by
`create_indexes` and the result is the same as with no failure at all. -/
theorem c7_index_failure_never_propagates (e : Env) (idxErr : Option String) :
    connect e true idxErr
        = ConnectResult.ok (clientTarget e.mongoUri) (resolvedDbName e) ∧
    connect e true idxErr = connect e true none :=
  ⟨rfl, rfl⟩

/- ========== C6 ========== -/

/-- C6 counterexample: with `MONGO_URI` absent (and the driver's default
target reachable) `connect` silently proceeds against
`localhost:27017` and succeeds — it does not fail with a
malformed-connection error, contrary to the claim's first half. -/
theorem c6_counterexample :
    connect (Env.mk none none) true none
      = ConnectResult.ok "mongodb://localhost:27017" "water_quality_db" := rfl

/-- C6 amended: when the connection-URI variable is absent, the client
falls back to the driver's default target (`localhost:27017`) and
`connect` succeeds exactly when the liveness ping against that default
succeeds — absence is not detected as a malformed connection; when the
database-name variable is absent, the default `water_quality_db` is
used. -/
theorem c6_amended_env_defaults (e : Env) (pingOk : Bool)
    (idxErr : Option String) (huri : e.mongoUri = none) :
    clientTarget e.mongoUri = "mongodb://localhost:27017" ∧
    (connect e pingOk idxErr
        = ConnectResult.ok "mongodb://localhost:27017" (resolvedDbName e)
      ↔ pingOk = true) ∧
    (e.mongoDbName = none → resolvedDbName e = "water_quality_db") := by
  refine ⟨by simp [clientTarget, huri], ?_, fun h => by simp [resolvedDbName, h]⟩
  cases pingOk <;> simp [connect, clientTarget, huri]

theorem c6_amended_env_defaults_witness :
    clientTarget (Env.mk none none).mongoUri = "mongodb://localhost:27017" ∧
    (connect (Env.mk none none) true none
        = ConnectResult.ok "mongodb://localhost:27017"
            (resolvedDbName (Env.mk none none))
      ↔ true = true) ∧
    resolvedDbName (Env.mk none none) = "water_quality_db" := by
  have h := c6_amended_env_defaults (Env.mk none none) true none rfl
  exact ⟨h.1, h.2.1, h.2.2 rfl⟩

/- ========== C4 ========== -/

/-- C4: `get_all_reports(limit, skip)` returns at most `limit` documents,
pairwise ordered by descending `created_at`, and is precisely the
`skip`-then-`limit` window of the collection sorted in that order. -/
theorem c4_get_all_reports_pagination (c : Coll) (limit skip : Nat) :
    (get_all_reports c limit skip).length ≤ limit ∧
    (get_all_reports c limit skip).Pairwise byCreatedDesc ∧
    get_all_reports c limit skip
      = ((List.insertionSort byCreatedDesc c.docs).drop skip).take limit := by
  refine ⟨List.length_take_le _ _, ?_, rfl⟩
  have hs : (List.insertionSort byCreatedDesc c.docs).Pairwise byCreatedDesc :=
    List.sorted_insertionSort byCreatedDesc c.docs
  exact List.Pairwise.sublist
    ((List.take_sublist _ _).trans (List.drop_sublist _ _)) hs

/- ========== C5 ========== -/

/-- C5: on a store whose `report_id`s are unique (the collection's
uniqueness invariant) and which holds a report with the given id, the
first `delete_water_report` returns `true` and removes it, and the second
returns `false` and leaves the store as it was; both are total calls —
no error path exists. -/
theorem c5_delete_twice (c : Coll) (report_id : String)
    (h : countMatches c [("report_id", Value.str report_id)] = 1) :
    (delete_water_report c report_id).1 = true ∧
    (delete_water_report (delete_water_report c report_id).2 report_id).1
      = false ∧
    (delete_water_report (delete_water_report c report_id).2 report_id).2
      = (delete_water_report c report_id).2 := by
  have h1 := deleteFirst_of_count_one c.docs _ h
  have h2 := deleteFirst_of_count_zero
    (deleteFirst c.docs [("report_id", Value.str report_id)]).2 _ h1.2
  refine ⟨h1.1, ?_, ?_⟩ <;>
    simp [delete_water_report, delete_one, h2]

theorem c5_delete_twice_witness :
    (delete_water_report
        (Coll.mk [[("report_id", Value.str "WQR-1"), ("x", Value.int 3)]] 5)
        "WQR-1").1 = true ∧
    (delete_water_report
        (delete_water_report
          (Coll.mk [[("report_id", Value.str "WQR-1"), ("x", Value.int 3)]] 5)
          "WQR-1").2 "WQR-1").1 = false ∧
    (delete_water_report
        (delete_water_report
          (Coll.mk [[("report_id", Value.str "WQR-1"), ("x", Value.int 3)]] 5)
          "WQR-1").2 "WQR-1").2
      = (delete_water_report
          (Coll.mk [[("report_id", Value.str "WQR-1"), ("x", Value.int 3)]] 5)
          "WQR-1").2 :=
  c5_delete_twice
    (Coll.mk [[("report_id", Value.str "WQR-1"), ("x", Value.int 3)]] 5)
    "WQR-1" (by decide)

/- ========== C1 ========== -/

/-- C1: saving a report whose `report_id` is not yet in the store (the
collection's uniqueness invariant — a duplicate insert would be rejected
by the unique index instead) and then fetching that `report_id` returns
the stored document: it holds every originally-supplied field unchanged
outside the two timestamp fields, carries the server-assigned
`created_at`/`updated_at` stamps, and the save call itself returns the
stringified generated ObjectId. -/
theorem c1_save_then_get (c : Coll) (report_data : Doc) (report_id : String)
    (t1 t2 : Nat)
    (hid : dGet report_data "report_id" = some (Value.str report_id))
    (hfresh : ∀ d ∈ c.docs,
      dGet d "report_id" ≠ some (Value.str report_id)) :
    (save_water_report c report_data t1 t2).1 = toString c.nextId ∧
    get_water_report (save_water_report c report_data t1 t2).2 report_id
      = some (reportStamped report_data t1 t2) ∧
    (∀ k, k ≠ "created_at" → k ≠ "updated_at" →
      dGet (reportStamped report_data t1 t2) k = dGet report_data k) ∧
    dGet (reportStamped report_data t1 t2) "created_at"
      = some (Value.time t1) ∧
    dGet (reportStamped report_data t1 t2) "updated_at"
      = some (Value.time t2) := by
  have hkeep : ∀ k, k ≠ "created_at" → k ≠ "updated_at" →
      dGet (reportStamped report_data t1 t2) k = dGet report_data k := by
    intro k h1 h2
    rw [reportStamped, get_set_ne _ _ _ _ h2, get_set_ne _ _ _ _ h1]
  refine ⟨rfl, ?_, hkeep, ?_, get_set_self _ _ _⟩
  · rw [get_water_report, find_one, save_water_report, insert_one]
    have hnomatch : ∀ d ∈ c.docs,
        docMatches [("report_id", Value.str report_id)] d = false := by
      intro d hd
      simp [docMatches, hfresh d hd]
    rw [show (Coll.mk (c.docs ++ [reportStamped report_data t1 t2])
        (c.nextId + 1)).docs
      = c.docs ++ [reportStamped report_data t1 t2] from rfl]
    rw [find?_append_none _ _ _ hnomatch]
    have hmatch : docMatches [("report_id", Value.str report_id)]
        (reportStamped report_data t1 t2) = true := by
      have := hkeep "report_id" (by decide) (by decide)
      simp [docMatches, this, hid]
    simp [List.find?, hmatch]
  · rw [reportStamped, get_set_ne _ _ _ _ (by decide), get_set_self]

theorem c1_save_then_get_witness :
    (save_water_report (Coll.mk [] 0)
        [("report_id", Value.str "WQR-2024-001"),
         ("sample_location", Value.str "Well A")] 3 4).1 = toString 0 ∧
    get_water_report
        (save_water_report (Coll.mk [] 0)
          [("report_id", Value.str "WQR-2024-001"),
           ("sample_location", Value.str "Well A")] 3 4).2 "WQR-2024-001"
      = some (reportStamped
          [("report_id", Value.str "WQR-2024-001"),
           ("sample_location", Value.str "Well A")] 3 4) ∧
    dGet (reportStamped
        [("report_id", Value.str "WQR-2024-001"),
         ("sample_location", Value.str "Well A")] 3 4) "sample_location"
      = some (Value.str "Well A") ∧
    dGet (reportStamped
        [("report_id", Value.str "WQR-2024-001"),
         ("sample_location", Value.str "Well A")] 3 4) "created_at"
      = some (Value.time 3) ∧
    dGet (reportStamped
        [("report_id", Value.str "WQR-2024-001"),
         ("sample_location", Value.str "Well A")] 3 4) "updated_at"
      = some (Value.time 4) := by
  have h := c1_save_then_get (Coll.mk [] 0)
    [("report_id", Value.str "WQR-2024-001"),
     ("sample_location", Value.str "Well A")]
    "WQR-2024-001" 3 4 (by decide) (by simp)
  exact ⟨h.1, h.2.1,
    by rw [h.2.2.1 "sample_location" (by decide) (by decide)]; rfl,
    h.2.2.2.1, h.2.2.2.2⟩

/- ========== C9 ========== -/

/-- C9: both write helpers mutate the caller's dict in place:
`save_water_report` leaves the argument holding the server-assigned
`created_at`/`updated_at` (overwriting any caller-supplied `created_at`),
`update_water_report` leaves the argument holding the refreshed
`updated_at`; whenever the argument did not already carry the exact server
stamp, the dict observed after the call differs from the one passed in. -/
theorem c9_caller_dict_mutated (report_data update_data : Doc)
    (t1 t2 now : Nat) :
    dGet (reportStamped report_data t1 t2) "created_at"
      = some (Value.time t1) ∧
    dGet (reportStamped report_data t1 t2) "updated_at"
      = some (Value.time t2) ∧
    (dGet report_data "updated_at" ≠ some (Value.time t2) →
      reportStamped report_data t1 t2 ≠ report_data) ∧
    (dGet report_data "created_at" ≠ some (Value.time t1) →
      reportStamped report_data t1 t2 ≠ report_data) ∧
    dGet (updateStamped update_data now) "updated_at"
      = some (Value.time now) ∧
    (dGet update_data "updated_at" ≠ some (Value.time now) →
      updateStamped update_data now ≠ update_data) := by
  have hc : dGet (reportStamped report_data t1 t2) "created_at"
      = some (Value.time t1) := by
    rw [reportStamped, get_set_ne _ _ _ _ (by decide), get_set_self]
  refine ⟨hc, get_set_self _ _ _, ?_, ?_, get_set_self _ _ _, ?_⟩
  · intro hne heq
    exact hne (by rw [← heq]; exact get_set_self _ _ _)
  · intro hne heq
    exact hne (by rw [← heq]; exact hc)
  · intro hne heq
    exact hne (by rw [← heq]; exact get_set_self _ _ _)

theorem c9_caller_dict_mutated_witness :
    dGet (reportStamped [("created_at", Value.int 0)] 1 2) "created_at"
      = some (Value.time 1) ∧
    reportStamped [("created_at", Value.int 0)] 1 2
      ≠ [("created_at", Value.int 0)] ∧
    updateStamped [] 3 ≠ [] :=
  ⟨(c9_caller_dict_mutated [("created_at", Value.int 0)] [] 1 2 3).1,
   (c9_caller_dict_mutated [("created_at", Value.int 0)] [] 1 2 3).2.2.2.1
     (by decide),
   (c9_caller_dict_mutated [("created_at", Value.int 0)] [] 1 2 3).2.2.2.2.2
     (by decide)⟩

/- ========== LEMMAS FOR THE UPDATE PATH ========== -/

/-- Keys after an assignment: nothing appears beyond the old keys and the
assigned one. -/
theorem mem_dKeys_set {d : Doc} {k k' : String} {v : Value}
    (h : k' ∈ dKeys (dSet d k v)) : k' ∈ dKeys d ∨ k' = k := by
  induction d with
  | nil =>
    right
    simpa [dSet, dKeys] using h
  | cons p d ih =>
    by_cases hp : p.1 = k
    · simp only [dSet, if_pos hp, dKeys, List.map_cons, List.mem_cons] at h ⊢
      rcases h with h | h
      · right; exact h
      · left; right; exact h
    · simp only [dSet, if_neg hp, dKeys, List.map_cons, List.mem_cons] at h ⊢
      rcases h with h | h
      · left; left; exact h
      · rcases ih h with h1 | h1
        · left; right; exact h1
        · right; exact h1

/-- Assignment preserves key uniqueness. -/
theorem dNodup_set {d : Doc} (k : String) (v : Value) (hnd : DocNodup d) :
    DocNodup (dSet d k v) := by
  induction d with
  | nil => simp [dSet, DocNodup, dKeys]
  | cons p d ih =>
    obtain ⟨hnotin, hd⟩ := docNodup_cons hnd
    by_cases hp : p.1 = k
    · simp only [dSet, if_pos hp, DocNodup, dKeys, List.map_cons,
        List.nodup_cons]
      exact ⟨by rw [← hp]; exact hnotin, hd⟩
    · simp only [dSet, if_neg hp, DocNodup, dKeys, List.map_cons,
        List.nodup_cons]
      refine ⟨fun hmem => ?_, ih hd⟩
      rcases mem_dKeys_set hmem with h1 | h1
      · exact hnotin h1
      · exact hp h1

/-- An entry with a different key survives an assignment. -/
theorem mem_set_of_ne {d : Doc} {kv : String × Value} {k : String}
    {v : Value} (h : kv ∈ d) (hne : kv.1 ≠ k) : kv ∈ dSet d k v := by
  induction d with
  | nil => simp at h
  | cons p d ih =>
    by_cases hp : p.1 = k
    · simp only [dSet, if_pos hp]
      rcases List.mem_cons.mp h with h1 | h1
      · exact absurd (h1 ▸ hp) hne
      · exact List.mem_cons_of_mem _ h1
    · simp only [dSet, if_neg hp]
      rcases List.mem_cons.mp h with h1 | h1
      · exact h1 ▸ List.mem_cons_self _ _
      · exact List.mem_cons_of_mem _ (ih h1)

/-- When no named field differs, the `$set` is the identity on the
document. -/
theorem applySet_of_setChanges_false {d u : Doc} (hd : DocNodup d)
    (h : setChanges d u = false) : applySet d u = d := by
  induction u with
  | nil => rfl
  | cons p u ih =>
    simp only [setChanges, List.any_cons, Bool.or_eq_false_iff,
      Bool.not_eq_false', beq_iff_eq] at h
    rw [applySet_cons, set_eq_self hd h.1]
    exact ih (by simpa [setChanges] using h.2)

/-- When some named field differs, the `$set` changes the document. -/
theorem applySet_ne_of_setChanges_true {d u : Doc} (hu : DocNodup u)
    (h : setChanges d u = true) : applySet d u ≠ d := by
  simp only [setChanges, List.any_eq_true, Bool.not_eq_eq_eq_not,
    Bool.not_true, beq_eq_false_iff_ne, ne_eq] at h
  obtain ⟨p, hp, hne⟩ := h
  intro heq
  have hget : dGet (applySet d u) p.1 = some p.2 :=
    applySet_get_mem d hu (show (p.1, p.2) ∈ u from hp)
  rw [heq] at hget
  exact hne hget

/-- Mongo's `modified_count` criterion for a matched document: the update
modifies it iff the applied `$set` actually changed it. -/
theorem setChanges_iff {d u : Doc} (hd : DocNodup d) (hu : DocNodup u) :
    setChanges d u = true ↔ applySet d u ≠ d := by
  constructor
  · exact applySet_ne_of_setChanges_true hu
  · intro hne
    cases hsc : setChanges d u with
    | true => rfl
    | false => exact absurd (applySet_of_setChanges_false hd hsc) hne

/-- `update_one` on a collection with no match: no-op, `false`. -/
theorem updateFirst_none (ds : List Doc) (q u : Doc)
    (h : ∀ d ∈ ds, docMatches q d = false) :
    updateFirst ds q u = (false, ds) := by
  induction ds with
  | nil => rfl
  | cons d ds ih =>
    simp [updateFirst, h d (List.mem_cons_self d ds),
      ih (fun b hb => h b (List.mem_cons_of_mem _ hb))]

/-- Positionwise effect of `update_one`: every slot is either untouched or
holds the `$set`-image of the matching document that was there. -/
theorem updateFirst_get? (ds : List Doc) (q u : Doc) (i : Nat) :
    (updateFirst ds q u).2.get? i = ds.get? i ∨
    ∃ d, ds.get? i = some d ∧ docMatches q d = true ∧
      (updateFirst ds q u).2.get? i = some (applySet d u) := by
  induction ds generalizing i with
  | nil => left; rfl
  | cons d ds ih =>
    by_cases hm : docMatches q d
    · cases i with
      | zero =>
        right
        exact ⟨d, rfl, hm, by simp [updateFirst, hm]⟩
      | succ n => left; simp [updateFirst, hm]
    · cases i with
      | zero => left; simp [updateFirst, hm]
      | succ n =>
        rcases ih n with h1 | ⟨e, he, hme, hne⟩
        · left; simpa [updateFirst, hm] using h1
        · right
          exact ⟨e, by simpa using he, hme,
            by simpa [updateFirst, hm] using hne⟩

/-- `update_one`'s boolean is `true` exactly when the traversal changed
the stored list. -/
theorem updateFirst_modified_iff (ds : List Doc) (q u : Doc)
    (hds : ∀ d ∈ ds, DocNodup d) (hu : DocNodup u) :
    (updateFirst ds q u).1 = true ↔ (updateFirst ds q u).2 ≠ ds := by
  induction ds with
  | nil => simp [updateFirst]
  | cons d ds ih =>
    by_cases hm : docMatches q d
    · have hiff := setChanges_iff (hds d (List.mem_cons_self d ds)) hu
      simp [updateFirst, hm, hiff, List.cons.injEq]
    · have ih' := ih (fun e he => hds e (List.mem_cons_of_mem _ he))
      simp [updateFirst, hm, List.cons.injEq, ih']

/- ========== C3 ========== -/

/-- C3: `update_water_report` (i) returns `false` and leaves the store
untouched when no report carries the `report_id`; (ii) changes no field
outside those named in the partial mapping plus `updated_at`, in any
stored document; (iii) on the document it did rewrite, `updated_at` holds
the fresh server stamp and every mapping field holds the mapping's value;
and (iv) returns `true` exactly when the stored state actually changed. -/
theorem c3_update_partial_merge (c : Coll) (report_id : String)
    (update_data : Doc) (now : Nat)
    (hdocs : ∀ d ∈ c.docs, DocNodup d) (hu : DocNodup update_data) :
    ((∀ d ∈ c.docs, dGet d "report_id" ≠ some (Value.str report_id)) →
      update_water_report c report_id update_data now = (false, c)) ∧
    (∀ i d d', c.docs.get? i = some d →
      (update_water_report c report_id update_data now).2.docs.get? i
        = some d' →
      ∀ k, k ∉ dKeys update_data → k ≠ "updated_at" →
        dGet d' k = dGet d k) ∧
    (∀ i d d', c.docs.get? i = some d →
      (update_water_report c report_id update_data now).2.docs.get? i
        = some d' →
      d' ≠ d →
      dGet d' "updated_at" = some (Value.time now) ∧
      ∀ kv ∈ update_data, kv.1 ≠ "updated_at" →
        dGet d' kv.1 = some kv.2) ∧
    ((update_water_report c report_id update_data now).1 = true ↔
      (update_water_report c report_id update_data now).2 ≠ c) := by
  have hu' : DocNodup (updateStamped update_data now) :=
    dNodup_set _ _ hu
  have hdocs2 : (update_water_report c report_id update_data now).2.docs
      = (updateFirst c.docs [("report_id", Value.str report_id)]
          (updateStamped update_data now)).2 := rfl
  refine ⟨?_, ?_, ?_, ?_⟩
  · intro hno
    have hnm : ∀ d ∈ c.docs,
        docMatches [("report_id", Value.str report_id)] d = false := by
      intro d hd
      simp [docMatches, hno d hd]
    rw [update_water_report, update_one, updateFirst_none _ _ _ hnm]
  · intro i d d' hd hd' k hk hk2
    rw [hdocs2] at hd'
    rcases updateFirst_get? c.docs [("report_id", Value.str report_id)]
        (updateStamped update_data now) i with h1 | ⟨e, he, _, hne⟩
    · rw [hd, hd'] at h1
      injection h1 with h1
      rw [h1]
    · rw [hd] at he
      injection he with he
      rw [hd'] at hne
      injection hne with hne
      subst he
      rw [hne]
      apply applySet_get_not_mem
      intro hmem
      rcases mem_dKeys_set hmem with h2 | h2
      · exact hk h2
      · exact hk2 h2
  · intro i d d' hd hd' hdiff
    rw [hdocs2] at hd'
    rcases updateFirst_get? c.docs [("report_id", Value.str report_id)]
        (updateStamped update_data now) i with h1 | ⟨e, he, _, hne⟩
    · rw [hd, hd'] at h1
      injection h1 with h1
      exact absurd h1 hdiff
    · rw [hd] at he
      injection he with he
      rw [hd'] at hne
      injection hne with hne
      subst he
      rw [hne]
      constructor
      · exact applySet_get_mem _ hu'
          (get_mem (get_set_self update_data "updated_at" (Value.time now)))
      · intro kv hkv hkne
        exact applySet_get_mem _ hu' (mem_set_of_ne hkv hkne)
  · have hmi := updateFirst_modified_iff c.docs
      [("report_id", Value.str report_id)]
      (updateStamped update_data now) hdocs hu'
    rw [update_water_report, update_one]
    cases c with
    | mk docs nextId =>
      simpa [Coll.mk.injEq] using hmi

theorem c3_update_partial_merge_witness :
    update_water_report
        (Coll.mk [[("report_id", Value.str "r1"), ("a", Value.int 1)]] 7)
        "r2" [("a", Value.int 2)] 5
      = (false,
         Coll.mk [[("report_id", Value.str "r1"), ("a", Value.int 1)]] 7) :=
  (c3_update_partial_merge
      (Coll.mk [[("report_id", Value.str "r1"), ("a", Value.int 1)]] 7)
      "r2" [("a", Value.int 2)] 5 (by decide) (by decide)).1 (by decide)

/- ========== C2 ========== -/

/-- `update_one` skips a non-matching prefix unchanged. -/
theorem updateFirst_append_none (l1 l2 : List Doc) (q u : Doc)
    (h : ∀ d ∈ l1, docMatches q d = false) :
    updateFirst (l1 ++ l2) q u
      = ((updateFirst l2 q u).1, l1 ++ (updateFirst l2 q u).2) := by
  induction l1 with
  | nil => rfl
  | cons d l1 ih =>
    simp [updateFirst, h d (List.mem_cons_self d l1),
      ih (fun b hb => h b (List.mem_cons_of_mem _ hb))]

/-- First payload of the C2 scenario: thresholds carrying a `safe_min`
field. -/
def firstStd : Doc :=
  [("parameter_name", Value.str "pH"), ("safe_min", Value.int 6)]

/-- Second payload of the C2 scenario: same `parameter_name`, different
fields (`safe_max` instead of `safe_min`). -/
def secondStd : Doc :=
  [("parameter_name", Value.str "pH"), ("safe_max", Value.int 9)]

/-- C2 counterexample: saving `firstStd` then `secondStd` into an empty
store leaves exactly one `pH` document, but that document still carries
`safe_min`, the field only the first payload supplied — the second save is
a `$set` field-merge, not a replace, so the claim's requirement that the
stored document reflect the second payload alone (no merge retaining
first-payload-only fields) is false at this input. -/
theorem c2_counterexample :
    ¬ ∀ r1 r2 : Value × Coll,
        save_parameter_standard (Coll.mk [] 0) firstStd = some r1 →
        save_parameter_standard r1.2 secondStd = some r2 →
        (countMatches r2.2 [("parameter_name", Value.str "pH")] = 1 ∧
         ∀ d ∈ r2.2.docs, dGet d "safe_min" = none) := by
  intro h
  have hc := h
    (Value.str "pH",
     update_one_upsert (Coll.mk [] 0)
       [("parameter_name", Value.str "pH")] firstStd)
    (Value.str "pH",
     update_one_upsert
       (update_one_upsert (Coll.mk [] 0)
         [("parameter_name", Value.str "pH")] firstStd)
       [("parameter_name", Value.str "pH")] secondStd)
    (by decide) (by decide)
  revert hc
  decide

/-- C2 amended: two `save_parameter_standard` calls with the same
`parameter_name` leave exactly one document for that name (upsert: no
duplicate); the surviving document carries every field of the second
payload at the second payload's value, but any field of the first upserted
document not named by the second payload is retained — a `$set`
field-merge, not a replace. -/
theorem c2_amended_upsert_is_set_merge (c : Coll) (sd1 sd2 : Doc)
    (nv : Value)
    (h1 : dGet sd1 "parameter_name" = some nv)
    (h2 : dGet sd2 "parameter_name" = some nv)
    (hnd1 : DocNodup sd1) (hnd2 : DocNodup sd2)
    (hfresh : ∀ d ∈ c.docs, dGet d "parameter_name" ≠ some nv) :
    save_parameter_standard c sd1
      = some (nv, Coll.mk
          (c.docs ++ [applySet [("parameter_name", nv)] sd1])
          (c.nextId + 1)) ∧
    save_parameter_standard
        (Coll.mk (c.docs ++ [applySet [("parameter_name", nv)] sd1])
          (c.nextId + 1)) sd2
      = some (nv, Coll.mk
          (c.docs ++
            [applySet (applySet [("parameter_name", nv)] sd1) sd2])
          (c.nextId + 1)) ∧
    countMatches
        (Coll.mk
          (c.docs ++
            [applySet (applySet [("parameter_name", nv)] sd1) sd2])
          (c.nextId + 1))
        [("parameter_name", nv)] = 1 ∧
    (∀ kv ∈ sd2,
      dGet (applySet (applySet [("parameter_name", nv)] sd1) sd2) kv.1
        = some kv.2) ∧
    (∀ k, k ∉ dKeys sd2 →
      dGet (applySet (applySet [("parameter_name", nv)] sd1) sd2) k
        = dGet (applySet [("parameter_name", nv)] sd1) k) := by
  have hm0 : ∀ d ∈ c.docs,
      docMatches [("parameter_name", nv)] d = false := by
    intro d hd
    simp [docMatches, hfresh d hd]
  have hd1get : dGet (applySet [("parameter_name", nv)] sd1)
      "parameter_name" = some nv :=
    applySet_get_mem _ hnd1 (get_mem h1)
  have hd1m : docMatches [("parameter_name", nv)]
      (applySet [("parameter_name", nv)] sd1) = true := by
    simp [docMatches, hd1get]
  have hd2get : dGet (applySet (applySet [("parameter_name", nv)] sd1) sd2)
      "parameter_name" = some nv :=
    applySet_get_mem _ hnd2 (get_mem h2)
  have hd2m : docMatches [("parameter_name", nv)]
      (applySet (applySet [("parameter_name", nv)] sd1) sd2) = true := by
    simp [docMatches, hd2get]
  have hany0 : c.docs.any (docMatches [("parameter_name", nv)]) = false :=
    List.any_eq_false.mpr (fun d hd => by simp [hm0 d hd])
  refine ⟨?_, ?_, ?_, ?_, ?_⟩
  · rw [save_parameter_standard, h1, Option.map_some']
    rw [update_one_upsert, if_neg (by simp [hany0])]
  · rw [save_parameter_standard, h2, Option.map_some']
    have hany1 : ((c.docs ++ [applySet [("parameter_name", nv)] sd1]).any
        (docMatches [("parameter_name", nv)])) = true :=
      List.any_eq_true.mpr
        ⟨applySet [("parameter_name", nv)] sd1,
         List.mem_append_right _ (List.mem_cons_self _ _), hd1m⟩
    rw [update_one_upsert, if_pos (by simp [hany1])]
    rw [updateFirst_append_none _ _ _ _ hm0]
    simp [updateFirst, hd1m]
  · rw [countMatches]
    rw [show (Coll.mk
        (c.docs ++ [applySet (applySet [("parameter_name", nv)] sd1) sd2])
        (c.nextId + 1)).docs
      = c.docs ++ [applySet (applySet [("parameter_name", nv)] sd1) sd2]
      from rfl]
    rw [List.countP_append]
    rw [List.countP_eq_zero.mpr (fun d hd => by simp [hm0 d hd])]
    simp [List.countP_cons, hd2m]
  · intro kv hkv
    exact applySet_get_mem _ hnd2 hkv
  · intro k hk
    exact applySet_get_not_mem _ _ _ hk

theorem c2_amended_upsert_is_set_merge_witness :
    save_parameter_standard (Coll.mk [] 0) firstStd
      = some (Value.str "pH", Coll.mk
          [applySet [("parameter_name", Value.str "pH")] firstStd] 1) ∧
    save_parameter_standard
        (Coll.mk [applySet [("parameter_name", Value.str "pH")] firstStd] 1)
        secondStd
      = some (Value.str "pH", Coll.mk
          [applySet (applySet [("parameter_name", Value.str "pH")] firstStd)
            secondStd] 1) ∧
    countMatches
        (Coll.mk
          [applySet (applySet [("parameter_name", Value.str "pH")] firstStd)
            secondStd] 1)
        [("parameter_name", Value.str "pH")] = 1 ∧
    dGet (applySet (applySet [("parameter_name", Value.str "pH")] firstStd)
        secondStd) "safe_max" = some (Value.int 9) ∧
    dGet (applySet (applySet [("parameter_name", Value.str "pH")] firstStd)
        secondStd) "safe_min"
      = dGet (applySet [("parameter_name", Value.str "pH")] firstStd)
          "safe_min" := by
  have h := c2_amended_upsert_is_set_merge (Coll.mk [] 0) firstStd secondStd
    (Value.str "pH") (by decide) (by decide) (by decide) (by decide)
    (by simp)
  refine ⟨by simpa using h.1, by simpa using h.2.1, by simpa using h.2.2.1,
    h.2.2.2.1 ("safe_max", Value.int 9) (by decide) , ?_⟩
  exact h.2.2.2.2 "safe_min" (by decide)

/- ========== SCHEMA CATALOG (`app/models/schemas.py`) ========== -/

/-- JSON-like input values submitted to pydantic validation.  Numbers are
collapsed to one constructor (the claims do not rely on float/int
distinctions), datetimes are opaque ticks. -/
inductive J where
  | str (s : String)
  | num (n : Int)
  | bool (b : Bool)
  | null
  | dt (t : Nat)
  | arr (xs : List J)
  | obj (fields : List (String × J))

/-- A structured validation error: field location path and error kind —
pydantic collects a list of these rather than stopping at the first. -/
abbrev VErr := List String × String

def lookupF : List (String × J) → String → Option J
  | [], _ => none
  | p :: fs, k => if p.1 = k then some p.2 else lookupF fs k

def vStr (path : List String) : J → List VErr
  | .str _ => []
  | _ => [(path, "string_type")]

def vNum (path : List String) : J → List VErr
  | .num _ => []
  | _ => [(path, "float_type")]

def vDt (path : List String) : J → List VErr
  | .dt _ => []
  | _ => [(path, "datetime_type")]

/-- `Union[float, int, str]` fields. -/
def vUnionNumStr (path : List String) : J → List VErr
  | .num _ => []
  | .str _ => []
  | _ => [(path, "union_type")]

/-- `StatusEnum`: the closed enumeration of `schemas.py` lines 14-19. -/
def vStatusEnum (path : List String) : J → List VErr
  | .str s =>
    if s = "optimal" ∨ s = "good" ∨ s = "warning" ∨ s = "critical" ∨
        s = "unknown" then [] else [(path, "enum")]
  | _ => [(path, "enum")]

/-- `ComplianceStatusEnum`: {Passed, Failed, Pending, N/A}. -/
def vComplianceEnum (path : List String) : J → List VErr
  | .str s =>
    if s = "Passed" ∨ s = "Failed" ∨ s = "Pending" ∨ s = "N/A" then []
    else [(path, "enum")]
  | _ => [(path, "enum")]

/-- `Dict[str, Any]`: any object is accepted. -/
def vDictAny (path : List String) : J → List VErr
  | .obj _ => []
  | _ => [(path, "dict_type")]

/-- `Dict[str, str]`. -/
def vDictStrStr (path : List String) : J → List VErr
  | .obj fs => (fs.map (fun p => vStr (path ++ [p.1]) p.2)).flatten
  | _ => [(path, "dict_type")]

/-- `Dict[str, X]` with an element validator. -/
def vDictOf (vf : List String → J → List VErr) (path : List String) :
    J → List VErr
  | .obj fs => (fs.map (fun p => vf (path ++ [p.1]) p.2)).flatten
  | _ => [(path, "dict_type")]

def vListIdx (vf : List String → J → List VErr) (path : List String) :
    List J → Nat → List VErr
  | [], _ => []
  | x :: xs, i => vf (path ++ [toString i]) x ++ vListIdx vf path xs (i + 1)

/-- `List[X]` with an element validator; elements are addressed by index
in error locations, as pydantic does. -/
def vList (vf : List String → J → List VErr) (path : List String) :
    J → List VErr
  | .arr xs => vListIdx vf path xs 0
  | _ => [(path, "list_type")]

/-- A required field: absence is itself the structured error `missing`,
named with the field's location. -/
def reqF (path : List String) (fs : List (String × J)) (k : String)
    (vf : List String → J → List VErr) : List VErr :=
  match lookupF fs k with
  | none => [(path ++ [k], "missing")]
  | some j => vf (path ++ [k]) j

/-- An `Optional[...] = None` field: absent or `null` is fine. -/
def optF (path : List String) (fs : List (String × J)) (k : String)
    (vf : List String → J → List VErr) : List VErr :=
  match lookupF fs k with
  | none => []
  | some .null => []
  | some j => vf (path ++ [k]) j

/-- A non-optional field with a default (e.g. `max_score: float = 100`):
absent is fine, present values must validate (`null` is not allowed). -/
def defF (path : List String) (fs : List (String × J)) (k : String)
    (vf : List String → J → List VErr) : List VErr :=
  match lookupF fs k with
  | none => []
  | some j => vf (path ++ [k]) j

def vExtractedParameter (path : List String) : J → List VErr
  | .obj fs =>
    reqF path fs "value" vUnionNumStr ++ optF path fs "unit" vStr ++
    optF path fs "detection_limit" vNum
  | _ => [(path, "model_type")]

def vSaturationIndex (path : List String) : J → List VErr
  | .obj fs =>
    reqF path fs "mineral_name" vStr ++ reqF path fs "si_value" vNum ++
    reqF path fs "status" vStr
  | _ => [(path, "model_type")]

def vChemicalStatus (path : List String) : J → List VErr
  | .obj fs =>
    reqF path fs "input_parameters" vDictAny ++
    reqF path fs "solution_parameters" vDictAny ++
    reqF path fs "saturation_indices" (vList vSaturationIndex) ++
    reqF path fs "ionic_strength" vNum ++
    reqF path fs "charge_balance_error" vNum ++
    reqF path fs "database_used" vStr
  | _ => [(path, "model_type")]

def vGraphResponse (path : List String) : J → List VErr
  | .obj fs =>
    reqF path fs "graph_url" vStr ++ reqF path fs "graph_type" vStr ++
    reqF path fs "color_mapping" vDictStrStr ++
    reqF path fs "created_at" vDt
  | _ => [(path, "model_type")]

def vScoreComponent (path : List String) : J → List VErr
  | .obj fs =>
    reqF path fs "name" vStr ++ reqF path fs "score" vNum ++
    reqF path fs "max_score" vNum ++ reqF path fs "weight" vNum
  | _ => [(path, "model_type")]

def vTotalScore (path : List String) : J → List VErr
  | .obj fs =>
    reqF path fs "overall_score" vNum ++ defF path fs "max_score" vNum ++
    reqF path fs "rating" vStr ++
    reqF path fs "components" (vList vScoreComponent)
  | _ => [(path, "model_type")]

def vWaterQualityIndex (path : List String) : J → List VErr
  | .obj fs =>
    reqF path fs "score" vNum ++ defF path fs "max_score" vNum ++
    reqF path fs "rating" vStr
  | _ => [(path, "model_type")]

def vComplianceScore (path : List String) : J → List VErr
  | .obj fs =>
    reqF path fs "score" vNum ++ reqF path fs "percentage" vStr ++
    reqF path fs "rating" vStr
  | _ => [(path, "model_type")]

def vRiskFactor (path : List String) : J → List VErr
  | .obj fs =>
    reqF path fs "score" vNum ++ defF path fs "max_score" vNum ++
    reqF path fs "severity" vStr
  | _ => [(path, "model_type")]

def vQualityReport (path : List String) : J → List VErr
  | .obj fs =>
    reqF path fs "water_quality_index" vWaterQualityIndex ++
    reqF path fs "compliance_score" vComplianceScore ++
    reqF path fs "risk_factor" vRiskFactor
  | _ => [(path, "model_type")]

def vCompositionParameter (path : List String) : J → List VErr
  | .obj fs =>
    reqF path fs "parameter_name" vStr ++ reqF path fs "value" vNum ++
    reqF path fs "unit" vStr ++ reqF path fs "status" vStatusEnum ++
    optF path fs "threshold" vDictAny
  | _ => [(path, "model_type")]

def vChemicalComposition (path : List String) : J → List VErr
  | .obj fs =>
    reqF path fs "parameters" (vList vCompositionParameter) ++
    reqF path fs "summary" vStr
  | _ => [(path, "model_type")]

def vBiologicalIndicator (path : List String) : J → List VErr
  | .obj fs =>
    reqF path fs "indicator_name" vStr ++
    reqF path fs "value" vUnionNumStr ++ optF path fs "unit" vStr ++
    reqF path fs "status" vStr ++ reqF path fs "risk_level" vStr
  | _ => [(path, "model_type")]

def vBiologicalReport (path : List String) : J → List VErr
  | .obj fs =>
    reqF path fs "indicators" (vList vBiologicalIndicator) ++
    reqF path fs "overall_status" vStr
  | _ => [(path, "model_type")]

def vComplianceItem (path : List String) : J → List VErr
  | .obj fs =>
    reqF path fs "parameter" vStr ++ reqF path fs "standard" vStr ++
    reqF path fs "status" vComplianceEnum ++
    optF path fs "actual_value" vNum ++
    optF path fs "required_value" vStr ++ optF path fs "remarks" vStr
  | _ => [(path, "model_type")]

def vComplianceChecklist (path : List String) : J → List VErr
  | .obj fs =>
    reqF path fs "items" (vList vComplianceItem) ++
    reqF path fs "overall_compliance" vNum ++
    reqF path fs "passed_count" vNum ++ reqF path fs "failed_count" vNum ++
    reqF path fs "pending_count" vNum
  | _ => [(path, "model_type")]

def vContaminantRisk (path : List String) : J → List VErr
  | .obj fs =>
    reqF path fs "contaminant_name" vStr ++ reqF path fs "value" vNum ++
    reqF path fs "unit" vStr ++ reqF path fs "risk_level" vStr ++
    optF path fs "threshold" vNum
  | _ => [(path, "model_type")]

def vContaminationRisk (path : List String) : J → List VErr
  | .obj fs =>
    reqF path fs "heavy_metals" (vList vContaminantRisk) ++
    reqF path fs "organic_compounds" (vList vContaminantRisk) ++
    reqF path fs "microbiological" (vList vContaminantRisk) ++
    reqF path fs "overall_severity" vStr ++ reqF path fs "risk_score" vNum
  | _ => [(path, "model_type")]

/-- `WaterAnalysisResponse` (`schemas.py` lines 215-251): nine required
sub-sections plus identity and timestamps; optional metadata. -/
def vWaterAnalysisResponse (path : List String) : J → List VErr
  | .obj fs =>
    reqF path fs "report_id" vStr ++
    reqF path fs "extracted_parameters" (vDictOf vExtractedParameter) ++
    reqF path fs "parameter_graph" vGraphResponse ++
    reqF path fs "chemical_status" vChemicalStatus ++
    reqF path fs "total_score" vTotalScore ++
    reqF path fs "quality_report" vQualityReport ++
    reqF path fs "chemical_composition" vChemicalComposition ++
    reqF path fs "biological_indicators" vBiologicalReport ++
    reqF path fs "compliance_checklist" vComplianceChecklist ++
    reqF path fs "contamination_risk" vContaminationRisk ++
    optF path fs "sample_location" vStr ++
    optF path fs "sample_date" vDt ++
    reqF path fs "created_at" vDt
  | _ => [(path, "model_type")]

/-- A fully-populated `WaterAnalysisResponse` input whose chemical
composition carries one parameter with the given `status` string; every
required field of every sub-section is present and well-typed, so its
validation outcome depends only on the enum check. -/
def fullResponse (status : String) : J :=
  J.obj
    [("report_id", J.str "WQR-2024-001"),
     ("extracted_parameters",
      J.obj [("pH", J.obj [("value", J.num 7)])]),
     ("parameter_graph",
      J.obj [("graph_url", J.str "https-example"),
             ("graph_type", J.str "bar"),
             ("color_mapping", J.obj [("pH", J.str "green")]),
             ("created_at", J.dt 0)]),
     ("chemical_status",
      J.obj [("input_parameters", J.obj []),
             ("solution_parameters", J.obj []),
             ("saturation_indices",
              J.arr [J.obj [("mineral_name", J.str "Calcite"),
                            ("si_value", J.num 1),
                            ("status", J.str "Oversaturated")]]),
             ("ionic_strength", J.num 0),
             ("charge_balance_error", J.num 0),
             ("database_used", J.str "phreeqc.dat")]),
     ("total_score",
      J.obj [("overall_score", J.num 85),
             ("rating", J.str "Good"),
             ("components",
              J.arr [J.obj [("name", J.str "chemistry"),
                            ("score", J.num 50),
                            ("max_score", J.num 100),
                            ("weight", J.num 1)]])]),
     ("quality_report",
      J.obj [("water_quality_index",
              J.obj [("score", J.num 85), ("rating", J.str "Good")]),
             ("compliance_score",
              J.obj [("score", J.num 90),
                     ("percentage", J.str "90%"),
                     ("rating", J.str "Good")]),
             ("risk_factor",
              J.obj [("score", J.num 2), ("severity", J.str "Low")])]),
     ("chemical_composition",
      J.obj [("parameters",
              J.arr [J.obj [("parameter_name", J.str "pH"),
                            ("value", J.num 7),
                            ("unit", J.str "pH"),
                            ("status", J.str status)]]),
             ("summary", J.str "all fine")]),
     ("biological_indicators",
      J.obj [("indicators",
              J.arr [J.obj [("indicator_name", J.str "E coli"),
                            ("value", J.num 0),
                            ("status", J.str "Safe"),
                            ("risk_level", J.str "Low")]]),
             ("overall_status", J.str "Safe")]),
     ("compliance_checklist",
      J.obj [("items",
              J.arr [J.obj [("parameter", J.str "pH"),
                            ("standard", J.str "WHO"),
                            ("status", J.str "Passed")]]),
             ("overall_compliance", J.num 100),
             ("passed_count", J.num 1),
             ("failed_count", J.num 0),
             ("pending_count", J.num 0)]),
     ("contamination_risk",
      J.obj [("heavy_metals",
              J.arr [J.obj [("contaminant_name", J.str "Lead"),
                            ("value", J.num 0),
                            ("unit", J.str "mgL"),
                            ("risk_level", J.str "Low")]]),
             ("organic_compounds", J.arr []),
             ("microbiological", J.arr []),
             ("overall_severity", J.str "Low"),
             ("risk_score", J.num 0)]),
     ("created_at", J.dt 1)]

/- ========== C8 ========== -/

/-- C8: (i) any input mapping lacking the required sub-section
`chemical_status` fails `WaterAnalysisResponse` validation with a
structured error naming exactly that field; (ii) the fully-populated
response with an in-enumeration status validates cleanly; and (iii) the
same response with the out-of-enumeration status `"excellent"` fails, its
single error pointing at the composition parameter's `status` field — so
the enum check rejects it even though every required sub-section field is
populated. -/
theorem c8_response_validation :
    (∀ fs : List (String × J), lookupF fs "chemical_status" = none →
      (["chemical_status"], "missing")
        ∈ vWaterAnalysisResponse [] (J.obj fs)) ∧
    vWaterAnalysisResponse [] (fullResponse "good") = [] ∧
    vWaterAnalysisResponse [] (fullResponse "excellent")
      = [(["chemical_composition", "parameters", "0", "status"], "enum")] := by
  refine ⟨?_, rfl, rfl⟩
  intro fs h
  have hmiss : reqF [] fs "chemical_status" vChemicalStatus
      = [(["chemical_status"], "missing")] := by
    simp [reqF, h]
  simp [vWaterAnalysisResponse, hmiss, List.mem_append]

theorem c8_response_validation_witness :
    (["chemical_status"], "missing") ∈ vWaterAnalysisResponse [] (J.obj []) :=
  c8_response_validation.1 [] rfl
